import Mathlib

/-!
Verification of the Project-Call training repository.

This file gives a shallow embedding of the parts of the source that the
claims C1 to C10 are about:

* `src/training/deployment/production_emotion_service.py`
  (`ProductionEmotionService` and its simulated inference paths),
* `src/training/emotion_trainer.py` (the three training loops with early
  stopping, and the text / audio / multimodal model classes),
* `src/training/data_processor.py` (`create_balanced_dataset` and
  `prepare_training_data`),
* `src/training/model_integrator.py` (`ProductionModelWrapper.optimize_model`
  and `ProductionModelWrapper.predict`),
* `src/training/deployment/emotion_service_wrapper.py` (`main`).

Machine floats are embedded as rationals, `np.random.random` draws are an
explicit list argument, Python's `math.exp`-via-`np.exp` is an abstract
strictly monotone, positive function argument, and pandas / sklearn sampling
and shuffling primitives (whose library code is outside the repository) are
function parameters constrained only by the properties their documentation
guarantees (a sample of size n from a frame returns n of its rows, a shuffle
is a permutation).
-/

/-! ### Generic list helpers (substring test, first-index-of-maximum) -/

/-- `isPre w t` decides whether the character list `w` is an initial segment
of `t` (used to embed Python's `in` substring test). -/
def isPre : List Char → List Char → Bool
  | [], _ => true
  | _ :: _, [] => false
  | a :: w, b :: t => a = b && isPre w t

/-- `hasSub t w` decides whether `w` occurs contiguously inside `t`
(Python's `w in t` on strings). -/
def hasSub : List Char → List Char → Bool
  | [], w => isPre w []
  | a :: t, w => isPre w (a :: t) || hasSub t w

/-- Python's `text.lower()`: lower-case every character. -/
def lowerStr (s : String) : List Char :=
  s.toList.map Char.toLower

/-- `any(word in text.lower() for word in words)` from
`ProductionEmotionService._simulate_text_inference`. -/
def anyWordIn (words : List String) (text : String) : Bool :=
  words.any (fun w => hasSub (lowerStr text) w.toList)

/-- First index at which `a` occurs in `l` (0 when absent); this is the
index `np.argmax` reports when `a` is the maximum value. -/
def idxOf (a : ℚ) : List ℚ → ℕ
  | [] => 0
  | b :: t => if b = a then 0 else idxOf a t + 1

/-- Maximum of a rational list (0 for the empty list, which never occurs in
the embedded code paths). -/
def listMax : List ℚ → ℚ
  | [] => 0
  | a :: t => t.foldl max a

/-- `np.argmax`: the first index of the maximum value. -/
def npArgmax (l : List ℚ) : ℕ :=
  idxOf (listMax l) l

/-! ### ProductionEmotionService
(`src/training/deployment/production_emotion_service.py`) -/

/-- The 13 emotion labels configured in `ProductionEmotionService.__init__`
(the same list appears in `EmotionDataProcessor` and `ModelIntegrator`). -/
def emotionLabels : List String :=
  ["happiness", "sadness", "neutral", "anger", "love", "fear",
   "disgust", "confusion", "surprise", "shame", "guilt", "sarcasm", "desire"]

/-- Keyword lists of `_simulate_text_inference`. -/
def happyWords : List String := ["happy", "great", "excellent", "wonderful"]

/-- Keyword list for the sadness bump in `_simulate_text_inference`. -/
def sadWords : List String := ["sad", "terrible", "awful", "bad"]

/-- Keyword list for the anger bump in `_simulate_text_inference`. -/
def angryWords : List String := ["angry", "frustrated", "mad"]

/-- `scores[i] += d` on a Python/numpy array, as a list update. -/
def bumpAt (i : ℕ) (d : ℚ) (scores : List ℚ) : List ℚ :=
  scores.set i (scores.getD i 0 + d)

/-- The keyword heuristic of `_simulate_text_inference`: bump happiness,
else sadness, else anger, by 0.3 depending on which word list matches. -/
def adjustScores (text : String) (scores : List ℚ) : List ℚ :=
  if anyWordIn happyWords text then bumpAt 0 (3/10) scores
  else if anyWordIn sadWords text then bumpAt 1 (3/10) scores
  else if anyWordIn angryWords text then bumpAt 3 (3/10) scores
  else scores

/-- The audio heuristic of `_simulate_audio_inference`: when more than 20
audio features are present, bump happiness by 0.2 and anger by 0.1. -/
def adjustAudio (nFeatures : ℕ) (scores : List ℚ) : List ℚ :=
  if 20 < nFeatures then
    let s1 := bumpAt 0 (1/5) scores
    bumpAt 3 (1/10) s1
  else scores

/-- `np.exp(scores) / np.sum(np.exp(scores))`, with the exponential an
explicit function argument `expF` (floats are embedded as rationals, on
which the genuine exponential does not live). -/
def softmax (expF : ℚ → ℚ) (l : List ℚ) : List ℚ :=
  l.map (fun x => expF x / (l.map expF).sum)

/-- `ProductionEmotionService._simulate_text_inference`: a pseudo-random
draw `rand` (one entry per emotion label, from `np.random.random`)
adjusted by the keyword heuristic and normalised by softmax. -/
def simulate_text_inference (expF : ℚ → ℚ) (rand : List ℚ) (text : String) :
    List ℚ :=
  softmax expF (adjustScores text rand)

/-- `ProductionEmotionService._simulate_audio_inference`. -/
def simulate_audio_inference (expF : ℚ → ℚ) (rand : List ℚ)
    (audioFeatures : List ℚ) : List ℚ :=
  softmax expF (adjustAudio audioFeatures.length rand)

/-- `ProductionEmotionService._simulate_multimodal_inference`:
`0.6 * text_scores + 0.4 * audio_scores`, each factor drawing its own
pseudo-random vector. -/
def simulate_multimodal_inference (expF : ℚ → ℚ) (randT randA : List ℚ)
    (text : String) (audioFeatures : List ℚ) : List ℚ :=
  List.zipWith (fun a b => 3/5 * a + 2/5 * b)
    (simulate_text_inference expF randT text)
    (simulate_audio_inference expF randA audioFeatures)

/-- The dictionary returned by the `detect_emotion_*` methods. `Option`
fields model the presence of the corresponding dictionary keys: the
success dictionary has `all_scores` and `model_used` but no `error`, the
fallback dictionary has `error` but neither of the others. -/
structure EmotionResult where
  emotion : String
  confidence : ℚ
  allScores : Option (List (String × ℚ))
  modelUsed : Option String
  errorMsg : Option String
deriving DecidableEq

/-- The success dictionary built by every `detect_emotion_*` method from
the simulated scores: argmax label, its score as confidence, and
`all_scores` as the zip of labels with scores. -/
def buildEmotionResult (modelUsed : String) (scores : List ℚ) :
    EmotionResult :=
  let idx := npArgmax scores
  { emotion := emotionLabels.getD idx ""
    confidence := scores.getD idx 0
    allScores := some (emotionLabels.zip scores)
    modelUsed := some modelUsed
    errorMsg := none }

/-- The fallback dictionary of the `except` branches:
`{'emotion': 'neutral', 'confidence': 0.5, 'error': str(e)}`. -/
def errorFallback (e : String) : EmotionResult :=
  { emotion := "neutral"
    confidence := 1/2
    allScores := none
    modelUsed := none
    errorMsg := some e }

/-- `ProductionEmotionService.detect_emotion_from_text` on the success
path: simulate, argmax, wrap. -/
def detect_emotion_from_text (expF : ℚ → ℚ) (rand : List ℚ)
    (text : String) : EmotionResult :=
  buildEmotionResult "text_emotion_optimized"
    (simulate_text_inference expF rand text)

/-- `ProductionEmotionService.detect_emotion_from_audio` on the success
path. -/
def detect_emotion_from_audio (expF : ℚ → ℚ) (rand : List ℚ)
    (audioFeatures : List ℚ) : EmotionResult :=
  buildEmotionResult "audio_emotion_optimized"
    (simulate_audio_inference expF rand audioFeatures)

/-- `ProductionEmotionService.detect_emotion_multimodal` on the success
path. -/
def detect_emotion_multimodal (expF : ℚ → ℚ) (randT randA : List ℚ)
    (text : String) (audioFeatures : List ℚ) : EmotionResult :=
  buildEmotionResult "multimodal_optimized"
    (simulate_multimodal_inference expF randT randA text audioFeatures)

/-- The mutable state of a `ProductionEmotionService` instance: the
`self.models` dictionary filled by `_load_production_models`. -/
structure ServiceState where
  models : List (String × Bool)
deriving DecidableEq

/-- `detect_emotion_from_text` with its `try/except` made explicit: the
body's outcome (the simulated scores, or the exception message of any
failing internal step) is the `inference` argument; an error is logged and
mapped to the fallback dictionary, and `self` is never written. -/
def detect_emotion_from_text_caught (st : ServiceState)
    (inference : Except String (List ℚ)) : EmotionResult × ServiceState :=
  (match inference with
   | .ok scores => buildEmotionResult "text_emotion_optimized" scores
   | .error e => errorFallback e, st)

/-- `detect_emotion_from_audio` with its `try/except` made explicit. -/
def detect_emotion_from_audio_caught (st : ServiceState)
    (inference : Except String (List ℚ)) : EmotionResult × ServiceState :=
  (match inference with
   | .ok scores => buildEmotionResult "audio_emotion_optimized" scores
   | .error e => errorFallback e, st)

/-- `detect_emotion_multimodal` with its `try/except` made explicit. -/
def detect_emotion_multimodal_caught (st : ServiceState)
    (inference : Except String (List ℚ)) : EmotionResult × ServiceState :=
  (match inference with
   | .ok scores => buildEmotionResult "multimodal_optimized" scores
   | .error e => errorFallback e, st)

/-! ### EmotionTrainer training loops (`src/training/emotion_trainer.py`) -/

/-- The per-loop mutable state of each training loop in `EmotionTrainer`:
`best_val_acc` (initialised to 0), `patience_counter` (initialised to 0)
and the epoch index of the best checkpoint written by `torch.save`
(`none` while no checkpoint has been saved). -/
structure TrainState where
  bestValAcc : ℚ
  patienceCounter : ℕ
  bestCheckpoint : Option ℕ
deriving DecidableEq

/-- Initial state of every training loop. -/
def initTrainState : TrainState := ⟨0, 0, none⟩

/-- One epoch's early-stopping bookkeeping, common to
`train_text_emotion_model`, `train_audio_emotion_model` and
`train_multimodal_model`: on strict improvement save the checkpoint and
reset the counter; otherwise increment the counter and report whether
`patience_counter >= patience` (the `break`). -/
def epochUpdate (patience : ℕ) (s : TrainState) (epoch : ℕ) (valAcc : ℚ) :
    TrainState × Bool :=
  if s.bestValAcc < valAcc then
    (⟨valAcc, 0, some epoch⟩, false)
  else
    (⟨s.bestValAcc, s.patienceCounter + 1, s.bestCheckpoint⟩,
      decide (patience ≤ s.patienceCounter + 1))

/-- Run up to `n` further epochs starting at epoch index `e` in state `s`,
breaking out of the `for` loop as soon as `epochUpdate` reports the
early stop.  Returns the final state and the number of epochs run. -/
def runEpochs (patience : ℕ) (valAcc : ℕ → ℚ) :
    ℕ → ℕ → TrainState → TrainState × ℕ
  | 0, e, s => (s, e)
  | n + 1, e, s =>
    let step := epochUpdate patience s e (valAcc e)
    if step.2 then (step.1, e + 1) else runEpochs patience valAcc n (e + 1) step.1

/-- The shared shape of the three training loops: `epochs` iterations of
`epochUpdate` from the initial state, with the epoch-`e` validation
accuracy given by `valAcc e`. -/
def train_emotion_model_loop (epochs patience : ℕ) (valAcc : ℕ → ℚ) :
    TrainState × ℕ :=
  runEpochs patience valAcc epochs 0 initTrainState

/-- `EmotionTrainer.train_text_emotion_model`: the early-stopping loop over
`config['epochs']` epochs. -/
def train_text_emotion_model (epochs patience : ℕ) (valAcc : ℕ → ℚ) :
    TrainState × ℕ :=
  train_emotion_model_loop epochs patience valAcc

/-- `EmotionTrainer.train_audio_emotion_model`: the same loop shape. -/
def train_audio_emotion_model (epochs patience : ℕ) (valAcc : ℕ → ℚ) :
    TrainState × ℕ :=
  train_emotion_model_loop epochs patience valAcc

/-- `EmotionTrainer.train_multimodal_model`: the same loop shape with the
hard-coded `num_epochs = 3`. -/
def train_multimodal_model (patience : ℕ) (valAcc : ℕ → ℚ) :
    TrainState × ℕ :=
  train_emotion_model_loop 3 patience valAcc

/-- The model each loop evaluates on the test set: after the loop, the code
reloads `models_dir / "best_*.pth"`, i.e. the saved best checkpoint. -/
def final_test_model (epochs patience : ℕ) (valAcc : ℕ → ℚ) : Option ℕ :=
  (train_emotion_model_loop epochs patience valAcc).1.bestCheckpoint

/-! ### EmotionDataProcessor (`src/training/data_processor.py`) -/

/-- A dataframe row, reduced to the columns `create_balanced_dataset`
inspects. -/
structure Row where
  text : String
  emotion : String
deriving DecidableEq

/-- `df['emotion'].unique()`: the distinct values in order of first
appearance. -/
def uniqueKeep (l : List String) : List String :=
  l.foldl (fun acc e => if e ∈ acc then acc else acc ++ [e]) []

/-- The per-class body of the `for emotion in df['emotion'].unique()` loop
of `create_balanced_dataset`: filter the class, downsample with
`df.sample(n, random_state=42)` when it exceeds `maxSamples`, otherwise pad
with `df.sample(additional, replace=True, random_state=42)`.  The two
pandas samplers are the function arguments `sampleN` (without replacement)
and `sampleRep` (with replacement). -/
def classBlock (sampleN sampleRep : List Row → ℕ → List Row)
    (df : List Row) (maxSamples : ℕ) (e : String) : List Row :=
  let ed := df.filter (fun r => r.emotion == e)
  if maxSamples < ed.length then sampleN ed maxSamples
  else if 0 < maxSamples - ed.length then
    ed ++ sampleRep ed (maxSamples - ed.length)
  else ed

/-- `EmotionDataProcessor.create_balanced_dataset`: concatenate the
balanced per-class blocks and shuffle (`df.sample(frac=1)`), the shuffle
being the function argument `shuffle`. -/
def create_balanced_dataset (sampleN sampleRep : List Row → ℕ → List Row)
    (shuffle : List Row → List Row) (df : List Row) (maxSamples : ℕ) :
    List Row :=
  shuffle (((uniqueKeep (df.map (fun r => r.emotion))).map
    (classBlock sampleN sampleRep df maxSamples)).flatten)

/-- sklearn's `train_test_split` sizing rule for a fractional `test_size`:
`n_test = ceil(test_size * n)`. -/
def nTestRows (n : ℕ) (testSize : ℚ) : ℕ :=
  Nat.ceil (testSize * (n : ℚ))

/-- `train_test_split(df, test_size=ts, stratify=..., random_state=42)`:
the (stratified, seeded) random ordering is the function argument `perm`;
the first `ceil(ts * n)` rows of the ordering form the test split and the
rest the train split.  Returns `(train, test)` as sklearn does. -/
def train_test_split (perm : List α → List α) (df : List α) (ts : ℚ) :
    List α × List α :=
  let l := perm df
  let k := nTestRows l.length ts
  (l.drop k, l.take k)

/-- `EmotionDataProcessor.prepare_training_data`: split off the test set
with fraction `testSize`, then split the remaining pool with the adjusted
fraction `valSize / (1 - testSize)`.  Returns `(train, val, test)`. -/
def prepare_training_data (perm1 perm2 : List α → List α) (df : List α)
    (testSize valSize : ℚ) : List α × List α × List α :=
  let p1 := train_test_split perm1 df testSize
  let valAdjusted := valSize / (1 - testSize)
  let p2 := train_test_split perm2 p1.1 valAdjusted
  (p2.1, p2.2, p1.2)

/-! ### Model classes (`src/training/emotion_trainer.py`) -/

/-- `torch.relu` on a feature vector. -/
def reluVec (v : List ℚ) : List ℚ :=
  v.map (fun x => max 0 x)

/-- `TextEmotionModel`: `bert` stands for the pretrained encoder composed
with the `.pooler_output` projection; `dropout` and `classifier` are its
remaining layers.  Weights live inside the function fields. -/
structure TextEmotionModel where
  bert : List ℤ × List ℤ → List ℚ
  dropout : List ℚ → List ℚ
  classifier : List ℚ → List ℚ

/-- `TextEmotionModel.forward`: pooler output, dropout, classifier. -/
def TextEmotionModel.forward (m : TextEmotionModel)
    (inputIdsAttn : List ℤ × List ℤ) : List ℚ :=
  m.classifier (m.dropout (m.bert inputIdsAttn))

/-- `AudioEmotionModel`: CNN feature extractor (`conv1`, `conv2`, `pool`),
`lstm` returning `(lstm_out, last hidden state)`, then dropout and the
classification head.  Tensor reshaping (`unsqueeze`, `permute`) only moves
axes and is absorbed into the function fields. -/
structure AudioEmotionModel where
  conv1 : List ℚ → List ℚ
  conv2 : List ℚ → List ℚ
  pool : List ℚ → List ℚ
  lstm : List ℚ → List ℚ × List ℚ
  dropout : List ℚ → List ℚ
  classifier : List ℚ → List ℚ

/-- The conv/pool/lstm trunk of `AudioEmotionModel.forward`, reused verbatim
by `MultimodalEmotionModel.forward`: `relu(conv1)`, `relu(conv2)`, `pool`,
`lstm`, last hidden state. -/
def audioTrunk (m : AudioEmotionModel) (audioFeatures : List ℚ) : List ℚ :=
  (m.lstm (m.pool (reluVec (m.conv2 (reluVec (m.conv1 audioFeatures)))))).2

/-- `AudioEmotionModel.forward`: trunk, dropout, classifier. -/
def AudioEmotionModel.forward (m : AudioEmotionModel)
    (audioFeatures : List ℚ) : List ℚ :=
  m.classifier (m.dropout (audioTrunk m audioFeatures))

/-- `MultimodalEmotionModel`: the two independently trained submodels plus
the fusion `nn.Sequential` (as one function). -/
structure MultimodalEmotionModel where
  text_model : TextEmotionModel
  audio_model : AudioEmotionModel
  fusion : List ℚ → List ℚ

/-- `MultimodalEmotionModel.forward`: BERT pooler output of the text model,
the audio model's conv/pool/lstm trunk, concatenation, fusion network. -/
def MultimodalEmotionModel.forward (m : MultimodalEmotionModel)
    (inputIdsAttn : List ℤ × List ℤ) (audioFeatures : List ℚ) : List ℚ :=
  m.fusion (m.text_model.bert inputIdsAttn ++ audioTrunk m.audio_model audioFeatures)

/-! ### ProductionModelWrapper (`src/training/model_integrator.py`) -/

/-- `ProductionModelWrapper`: the wrapped model of type `M`, the slots
filled by `optimize_model` (`S` is the type of ONNX sessions), and the
`predict` bookkeeping (`R` is the prediction-result type;
`inferenceTimes` counts the entries appended to `self.inference_times`). -/
structure ProductionModelWrapper (M S R : Type) where
  originalModel : M
  modelType : String
  optimizedModel : Option M
  quantizedModel : Option M
  onnxSession : Option S
  inferenceTimes : ℕ
  predictionCache : List (Int × R)

/-- The module set handed to `quantization.quantize_dynamic`:
`{nn.Linear, nn.LSTM, nn.Conv1d}`. -/
def quantLayerSet : List String := ["Linear", "LSTM", "Conv1d"]

/-- `ProductionModelWrapper.optimize_model`.  The three library invocations
are function arguments returning `Except` (an `error` is a raised Python
exception): `script` is `torch.jit.script`, `quant` is
`quantization.quantize_dynamic` on the given module set, `onnxExport` is
`_export_to_onnx` up to its own `try` (its result is the loaded
`ort.InferenceSession`; its exceptions are caught inside `_export_to_onnx`
and only logged).  `optAvail` is `OPTIMIZATION_AVAILABLE`.  At level
`light` there is no `try`, so a `script` exception propagates; at `medium`
and `aggressive` the outer handler assigns the unoptimized original model
to `optimized_model`.  An unrecognised level matches no branch. -/
def optimize_model {M S R : Type} (w : ProductionModelWrapper M S R)
    (script : M → Except String M)
    (quant : M → List String → Except String M)
    (onnxExport : M → Except String S)
    (optAvail : Bool) (level : String) :
    Except String (ProductionModelWrapper M S R) :=
  if level = "light" then
    (script w.originalModel).map (fun m => { w with optimizedModel := some m })
  else if level = "medium" then
    .ok <| match script w.originalModel with
      | .error _ => { w with optimizedModel := some w.originalModel }
      | .ok m =>
        if optAvail then
          match quant w.originalModel quantLayerSet with
          | .error _ => { w with optimizedModel := some w.originalModel }
          | .ok q => { w with optimizedModel := some m, quantizedModel := some q }
        else { w with optimizedModel := some m }
  else if level = "aggressive" then
    .ok <| match script w.originalModel with
      | .error _ => { w with optimizedModel := some w.originalModel }
      | .ok m =>
        if optAvail then
          match quant w.originalModel quantLayerSet with
          | .error _ => { w with optimizedModel := some w.originalModel }
          | .ok q =>
            match onnxExport w.originalModel with
            | .error _ =>
              { w with optimizedModel := some m, quantizedModel := some q }
            | .ok sess =>
              { w with optimizedModel := some m, quantizedModel := some q,
                       onnxSession := some sess }
        else { w with optimizedModel := some m }
  else .ok w

/-- First-match lookup in the prediction cache (a Python dict keyed by the
integer `hash(str(input_data))`; insertion prepends, so first match is the
most recent binding). -/
def cacheLookup {R : Type} (k : Int) : List (Int × R) → Option R
  | [] => none
  | (k', r) :: t => if k' = k then some r else cacheLookup k t

/-- `ProductionModelWrapper.predict`.  `hashFn` is `hash(str(input_data))`
and `infer` is the inference on the best available model
(`_predict_onnx` or `_predict_torch`).  On a cache hit the method returns
immediately; on a miss it runs inference, appends to
`self.inference_times`, and stores the result under the key — but only
when `use_cache and cache_key` is truthy, so a key equal to `0` is never
stored. -/
def ProductionModelWrapper.predict {M S R I : Type}
    (w : ProductionModelWrapper M S R) (hashFn : I → Int) (infer : I → R)
    (inputData : I) (useCache : Bool) :
    R × ProductionModelWrapper M S R :=
  let k := hashFn inputData
  match (if useCache then cacheLookup k w.predictionCache else none) with
  | some r => (r, w)
  | none =>
    let result := infer inputData
    let w1 := { w with inferenceTimes := w.inferenceTimes + 1 }
    if useCache ∧ ¬ k = 0 then
      (result, { w1 with predictionCache := (k, result) :: w1.predictionCache })
    else (result, w1)

/-! ### emotion_service_wrapper.py `main` -/

/-- The fixed `all_scores` of the fallback result printed when the
production service is unavailable. -/
def fallbackAllScores : List (String × ℚ) :=
  [("neutral", 1/2), ("happiness", 1/5), ("sadness", 1/10),
   ("anger", 1/10), ("love", 1/10)]

/-- The JSON object printed by the fallback branch of `main`. -/
structure FallbackMsg where
  emotion : String
  confidence : ℚ
  allScores : List (String × ℚ)
  modelUsed : String
deriving DecidableEq

/-- The fallback result for a given mode string:
`model_used = f"{mode}_fallback"`. -/
def fallbackMsg (mode : String) : FallbackMsg :=
  ⟨"neutral", 1/2, fallbackAllScores, mode ++ "_fallback"⟩

/-- Everything `main` can do, as observed by the Node.js caller:
print `{"error": "Invalid arguments"}` and `sys.exit(1)`; die on an
uncaught `json.loads` exception; print the fixed fallback; or print what
the service call produced. -/
inductive MainResult (P : Type) where
  | badArgs : MainResult P
  | uncaught (e : String) : MainResult P
  | printedFallback (f : FallbackMsg) : MainResult P
  | printedService (out : P) : MainResult P
deriving DecidableEq

/-- `emotion_service_wrapper.main`: argument-count check (exit 1 on
failure), `json.loads` of `argv[2]` (uncaught on invalid JSON), the
`SERVICE_AVAILABLE` fallback, and otherwise the mode dispatch onto the
service, abstracted as `serviceRun` applied to the mode and payload. -/
def wrapperMain {J P : Type} (serviceAvailable : Bool)
    (parse : String → Except String J) (serviceRun : String → J → P)
    (argv : List String) : MainResult P :=
  if ¬ argv.length = 3 then .badArgs
  else
    let mode := argv.getD 1 ""
    match parse (argv.getD 2 "") with
    | .error e => .uncaught e
    | .ok payload =>
      if ¬ serviceAvailable then .printedFallback (fallbackMsg mode)
      else .printedService (serviceRun mode payload)

/-! ### Lemmas about `listMax`, `idxOf`, `npArgmax`, `softmax` -/

theorem foldl_max_mem (t : List ℚ) : ∀ a : ℚ, t.foldl max a ∈ a :: t := by
  induction t with
  | nil => intro a; simp [List.foldl]
  | cons b t ih =>
    intro a
    simp only [List.foldl]
    rcases List.mem_cons.mp (ih (max a b)) with h1 | h1
    · rw [h1]
      rcases max_choice a b with hm | hm <;> rw [hm] <;> simp
    · exact List.mem_cons.mpr (Or.inr (List.mem_cons.mpr (Or.inr h1)))

theorem init_le_foldl_max (t : List ℚ) : ∀ a : ℚ, a ≤ t.foldl max a := by
  induction t with
  | nil => intro a; simp [List.foldl]
  | cons b t ih =>
    intro a
    exact le_trans (le_max_left a b) (ih (max a b))

theorem mem_le_foldl_max (t : List ℚ) : ∀ (a x : ℚ), x ∈ t → x ≤ t.foldl max a := by
  induction t with
  | nil => intro a x hx; simp at hx
  | cons b t ih =>
    intro a x hx
    rcases List.mem_cons.mp hx with h | h
    · subst h
      exact le_trans (le_max_right a x) (init_le_foldl_max t (max a x))
    · exact ih (max a b) x h

theorem listMax_mem {l : List ℚ} (h : l ≠ []) : listMax l ∈ l := by
  cases l with
  | nil => exact absurd rfl h
  | cons a t => simpa [listMax] using foldl_max_mem t a

theorem le_listMax {l : List ℚ} {x : ℚ} (h : x ∈ l) : x ≤ listMax l := by
  cases l with
  | nil => simp at h
  | cons a t =>
    rcases List.mem_cons.mp h with h | h
    · subst h; exact init_le_foldl_max t x
    · exact mem_le_foldl_max t a x h

theorem idxOf_lt_length {a : ℚ} : ∀ {l : List ℚ}, a ∈ l → idxOf a l < l.length := by
  intro l
  induction l with
  | nil => intro h; simp at h
  | cons b t ih =>
    intro h
    by_cases hb : b = a
    · simp [idxOf, hb]
    · have : a ∈ t := by
        rcases List.mem_cons.mp h with h | h
        · exact absurd h.symm hb
        · exact h
      simpa [idxOf, hb] using ih this

theorem getD_idxOf {a : ℚ} : ∀ {l : List ℚ}, a ∈ l → l.getD (idxOf a l) 0 = a := by
  intro l
  induction l with
  | nil => intro h; simp at h
  | cons b t ih =>
    intro h
    by_cases hb : b = a
    · simp [idxOf, hb]
    · have : a ∈ t := by
        rcases List.mem_cons.mp h with h | h
        · exact absurd h.symm hb
        · exact h
      simpa [idxOf, hb] using ih this

theorem npArgmax_lt_length {l : List ℚ} (h : l ≠ []) : npArgmax l < l.length :=
  idxOf_lt_length (listMax_mem h)

theorem getD_npArgmax {l : List ℚ} (h : l ≠ []) :
    l.getD (npArgmax l) 0 = listMax l :=
  getD_idxOf (listMax_mem h)

theorem foldl_max_map {g : ℚ → ℚ} (hg : Monotone g) (t : List ℚ) :
    ∀ a : ℚ, (t.map g).foldl max (g a) = g (t.foldl max a) := by
  induction t with
  | nil => intro a; simp [List.foldl]
  | cons b t ih =>
    intro a
    simp only [List.map_cons, List.foldl]
    rw [← hg.map_max, ih (max a b)]

theorem listMax_map {g : ℚ → ℚ} (hg : Monotone g) {l : List ℚ} (h : l ≠ []) :
    listMax (l.map g) = g (listMax l) := by
  cases l with
  | nil => exact absurd rfl h
  | cons a t => simpa [listMax] using foldl_max_map hg t a

theorem idxOf_map {g : ℚ → ℚ} (hg : Function.Injective g) (a : ℚ) :
    ∀ l : List ℚ, idxOf (g a) (l.map g) = idxOf a l := by
  intro l
  induction l with
  | nil => simp [idxOf]
  | cons b t ih =>
    by_cases hb : b = a
    · simp [idxOf, hb]
    · have : ¬ g b = g a := fun hgb => hb (hg hgb)
      simp [idxOf, hb, this, ih]

theorem npArgmax_map {g : ℚ → ℚ} (hg : StrictMono g) (l : List ℚ) :
    npArgmax (l.map g) = npArgmax l := by
  cases l with
  | nil => simp [npArgmax, listMax, idxOf]
  | cons a t =>
    rw [npArgmax, npArgmax, listMax_map hg.monotone (by simp),
      idxOf_map hg.injective]

theorem sum_map_pos {f : ℚ → ℚ} {l : List ℚ} (h : ∀ x ∈ l, 0 < f x)
    (hne : l ≠ []) : 0 < (l.map f).sum := by
  refine List.sum_pos _ (fun x hx => ?_) (by simpa using hne)
  rcases List.mem_map.mp hx with ⟨y, hy, rfl⟩
  exact h y hy

theorem npArgmax_softmax {expF : ℚ → ℚ} (hmono : StrictMono expF)
    {l : List ℚ} (hpos : ∀ x ∈ l, 0 < expF x) :
    npArgmax (softmax expF l) = npArgmax l := by
  rcases eq_or_ne l [] with rfl | hne
  · simp [softmax]
  · have hS : 0 < (l.map expF).sum := sum_map_pos hpos hne
    have : StrictMono (fun x => expF x / (l.map expF).sum) :=
      fun x y hxy => div_lt_div_of_pos_right (hmono hxy) hS
    exact npArgmax_map this l

theorem softmax_pos {expF : ℚ → ℚ} {l : List ℚ}
    (hpos : ∀ x ∈ l, 0 < expF x) (hne : l ≠ []) :
    ∀ x ∈ softmax expF l, 0 < x := by
  intro x hx
  rcases List.mem_map.mp hx with ⟨y, hy, rfl⟩
  exact div_pos (hpos y hy) (sum_map_pos hpos hne)

theorem sum_map_div (l : List ℚ) (c : ℚ) :
    (l.map (fun x => x / c)).sum = l.sum / c := by
  induction l with
  | nil => simp
  | cons a t ih => simp [ih, add_div]

theorem softmax_sum {expF : ℚ → ℚ} {l : List ℚ}
    (hpos : ∀ x ∈ l, 0 < expF x) (hne : l ≠ []) :
    (softmax expF l).sum = 1 := by
  have hS : 0 < (l.map expF).sum := sum_map_pos hpos hne
  have : softmax expF l = (l.map expF).map (fun x => x / (l.map expF).sum) := by
    simp [softmax, List.map_map, Function.comp]
  rw [this, sum_map_div, div_self hS.ne']

theorem length_softmax (expF : ℚ → ℚ) (l : List ℚ) :
    (softmax expF l).length = l.length := by
  simp [softmax]

/-! ### Lemmas about the score heuristics and result construction -/

theorem getD_nonneg {l : List ℚ} (h : ∀ x ∈ l, 0 ≤ x) (i : ℕ) :
    0 ≤ l.getD i 0 := by
  rcases lt_or_le i l.length with hi | hi
  · rw [List.getD_eq_getElem?_getD, List.getElem?_eq_getElem hi]
    exact h _ (List.getElem_mem hi)
  · rw [List.getD_eq_getElem?_getD, List.getElem?_eq_none hi]
    simp

theorem length_bumpAt (i : ℕ) (d : ℚ) (l : List ℚ) :
    (bumpAt i d l).length = l.length := by
  simp [bumpAt]

theorem nonneg_bumpAt {l : List ℚ} {d : ℚ} (hd : 0 ≤ d)
    (h : ∀ x ∈ l, 0 ≤ x) (i : ℕ) : ∀ x ∈ bumpAt i d l, 0 ≤ x := by
  intro x hx
  rcases List.mem_or_eq_of_mem_set hx with hm | rfl
  · exact h x hm
  · exact add_nonneg (getD_nonneg h i) hd

theorem length_adjustScores (text : String) (l : List ℚ) :
    (adjustScores text l).length = l.length := by
  unfold adjustScores
  split <;> try split <;> try split
  all_goals simp [length_bumpAt]

theorem nonneg_adjustScores {l : List ℚ} (h : ∀ x ∈ l, 0 ≤ x)
    (text : String) : ∀ x ∈ adjustScores text l, 0 ≤ x := by
  unfold adjustScores
  split <;> try split <;> try split
  all_goals first
    | exact nonneg_bumpAt (by norm_num) h _
    | exact h

theorem length_adjustAudio (n : ℕ) (l : List ℚ) :
    (adjustAudio n l).length = l.length := by
  unfold adjustAudio
  split <;> simp [length_bumpAt]

theorem nonneg_adjustAudio {l : List ℚ} (h : ∀ x ∈ l, 0 ≤ x)
    (n : ℕ) : ∀ x ∈ adjustAudio n l, 0 ≤ x := by
  unfold adjustAudio
  split
  · exact nonneg_bumpAt (by norm_num)
      (nonneg_bumpAt (by norm_num) h 0) 3
  · exact h

theorem mem_zipWith_fuse {f : ℚ → ℚ → ℚ} :
    ∀ {l1 l2 : List ℚ} {x : ℚ}, x ∈ List.zipWith f l1 l2 →
      ∃ a b, a ∈ l1 ∧ b ∈ l2 ∧ x = f a b := by
  intro l1
  induction l1 with
  | nil => intro l2 x hx; simp at hx
  | cons a t ih =>
    intro l2 x hx
    cases l2 with
    | nil => simp at hx
    | cons b u =>
      rcases List.mem_cons.mp hx with h | h
      · exact ⟨a, b, List.mem_cons_self .., List.mem_cons_self .., h⟩
      · rcases ih h with ⟨a', b', ha, hb, rfl⟩
        exact ⟨a', b', List.mem_cons.mpr (Or.inr ha),
          List.mem_cons.mpr (Or.inr hb), rfl⟩

theorem sum_zipWith_convex :
    ∀ {l1 l2 : List ℚ}, l1.length = l2.length →
      (List.zipWith (fun a b => 3/5 * a + 2/5 * b) l1 l2).sum
        = 3/5 * l1.sum + 2/5 * l2.sum := by
  intro l1
  induction l1 with
  | nil =>
    intro l2 h
    cases l2 with
    | nil => simp
    | cons b u => simp at h
  | cons a t ih =>
    intro l2 h
    cases l2 with
    | nil => simp at h
    | cons b u =>
      simp only [List.zipWith_cons_cons, List.sum_cons]
      rw [ih (by simpa using h)]
      ring

theorem getD_mem_of_lt {α : Type} {l : List α} {i : ℕ} (h : i < l.length)
    (d : α) : l.getD i d ∈ l := by
  rw [List.getD_eq_getElem?_getD, List.getElem?_eq_getElem h]
  exact List.getElem_mem h

theorem buildEmotionResult_spec (mu : String) (S : List ℚ)
    (h13 : S.length = 13) :
    (buildEmotionResult mu S).allScores = some (emotionLabels.zip S) ∧
    (emotionLabels.zip S).map Prod.fst = emotionLabels ∧
    (emotionLabels.zip S).map Prod.snd = S ∧
    (buildEmotionResult mu S).confidence ∈ S ∧
    (∀ x ∈ S, x ≤ (buildEmotionResult mu S).confidence) ∧
    (buildEmotionResult mu S).emotion = emotionLabels.getD (npArgmax S) "" ∧
    (buildEmotionResult mu S).emotion ∈ emotionLabels ∧
    (buildEmotionResult mu S).modelUsed = some mu ∧
    (buildEmotionResult mu S).errorMsg = none := by
  have hne : S ≠ [] := by
    intro h; rw [h] at h13; simp at h13
  have hlabels : emotionLabels.length = 13 := by decide
  have hconf : (buildEmotionResult mu S).confidence = listMax S := by
    simp only [buildEmotionResult]
    exact getD_npArgmax hne
  refine ⟨rfl, List.map_fst_zip _ _ (by rw [h13, hlabels]),
    List.map_snd_zip _ _ (by rw [h13, hlabels]), ?_, ?_, rfl, ?_, rfl, rfl⟩
  · rw [hconf]; exact listMax_mem hne
  · intro x hx; rw [hconf]; exact le_listMax hx
  · have hidx : npArgmax S < emotionLabels.length := by
      rw [hlabels, ← h13]; exact npArgmax_lt_length hne
    exact getD_mem_of_lt hidx ""

theorem simulate_text_props (expF : ℚ → ℚ) (rand : List ℚ) (text : String)
    (hexp : ∀ x, 0 ≤ x → 0 < expF x) (hrand : ∀ x ∈ rand, 0 ≤ x)
    (hlen : rand.length = 13) :
    (simulate_text_inference expF rand text).length = 13 ∧
    (∀ x ∈ simulate_text_inference expF rand text, 0 < x) ∧
    (simulate_text_inference expF rand text).sum = 1 := by
  have hpos : ∀ x ∈ adjustScores text rand, 0 < expF x :=
    fun x hx => hexp x (nonneg_adjustScores hrand text x hx)
  have hlen' : (adjustScores text rand).length = 13 := by
    rw [length_adjustScores, hlen]
  have hne : adjustScores text rand ≠ [] := by
    intro h; rw [h] at hlen'; simp at hlen'
  exact ⟨by rw [simulate_text_inference, length_softmax, hlen'],
    softmax_pos hpos hne, softmax_sum hpos hne⟩

theorem simulate_audio_props (expF : ℚ → ℚ) (rand audioFeatures : List ℚ)
    (hexp : ∀ x, 0 ≤ x → 0 < expF x) (hrand : ∀ x ∈ rand, 0 ≤ x)
    (hlen : rand.length = 13) :
    (simulate_audio_inference expF rand audioFeatures).length = 13 ∧
    (∀ x ∈ simulate_audio_inference expF rand audioFeatures, 0 < x) ∧
    (simulate_audio_inference expF rand audioFeatures).sum = 1 := by
  have hpos : ∀ x ∈ adjustAudio audioFeatures.length rand, 0 < expF x :=
    fun x hx => hexp x (nonneg_adjustAudio hrand _ x hx)
  have hlen' : (adjustAudio audioFeatures.length rand).length = 13 := by
    rw [length_adjustAudio, hlen]
  have hne : adjustAudio audioFeatures.length rand ≠ [] := by
    intro h; rw [h] at hlen'; simp at hlen'
  exact ⟨by rw [simulate_audio_inference, length_softmax, hlen'],
    softmax_pos hpos hne, softmax_sum hpos hne⟩

theorem simulate_multimodal_props (expF : ℚ → ℚ)
    (randT randA : List ℚ) (text : String) (audioFeatures : List ℚ)
    (hexp : ∀ x, 0 ≤ x → 0 < expF x)
    (hrandT : ∀ x ∈ randT, 0 ≤ x) (hlenT : randT.length = 13)
    (hrandA : ∀ x ∈ randA, 0 ≤ x) (hlenA : randA.length = 13) :
    (simulate_multimodal_inference expF randT randA text audioFeatures).length = 13 ∧
    (∀ x ∈ simulate_multimodal_inference expF randT randA text audioFeatures, 0 < x) ∧
    (simulate_multimodal_inference expF randT randA text audioFeatures).sum = 1 := by
  obtain ⟨hTl, hTp, hTs⟩ :=
    simulate_text_props expF randT text hexp hrandT hlenT
  obtain ⟨hAl, hAp, hAs⟩ :=
    simulate_audio_props expF randA audioFeatures hexp hrandA hlenA
  refine ⟨?_, ?_, ?_⟩
  · rw [simulate_multimodal_inference, List.length_zipWith, hTl, hAl]
    simp
  · intro x hx
    rcases mem_zipWith_fuse hx with ⟨a, b, ha, hb, rfl⟩
    have := hTp a ha
    have := hAp b hb
    positivity
  · rw [simulate_multimodal_inference,
      sum_zipWith_convex (by rw [hTl, hAl]), hTs, hAs]
    norm_num

/-- C9: on the success path each `detect_emotion_*` result has exactly the
13 configured labels as the keys of `all_scores`, strictly positive scores
summing to 1, `confidence` equal to the maximum score, and `emotion` the
label at the first index attaining that maximum, hence one of the 13
labels.  The pseudo-random draws are the `rand*` arguments (entries of
`np.random.random` lie in `[0, 1)`, whence the nonnegativity hypotheses);
`expF` embeds `np.exp`, which is positive on nonnegative inputs. -/
theorem claim_C9_success_invariants (expF : ℚ → ℚ)
    (randT randA : List ℚ) (text : String) (audioFeatures : List ℚ)
    (hexp : ∀ x, 0 ≤ x → 0 < expF x)
    (hrandT : ∀ x ∈ randT, 0 ≤ x) (hlenT : randT.length = 13)
    (hrandA : ∀ x ∈ randA, 0 ≤ x) (hlenA : randA.length = 13) :
    emotionLabels.length = 13 ∧
    ((detect_emotion_from_text expF randT text).allScores
        = some (emotionLabels.zip (simulate_text_inference expF randT text)) ∧
      (emotionLabels.zip (simulate_text_inference expF randT text)).map Prod.fst
        = emotionLabels ∧
      (∀ p ∈ emotionLabels.zip (simulate_text_inference expF randT text), 0 < p.2) ∧
      ((emotionLabels.zip (simulate_text_inference expF randT text)).map Prod.snd).sum = 1 ∧
      (detect_emotion_from_text expF randT text).confidence
        ∈ simulate_text_inference expF randT text ∧
      (∀ x ∈ simulate_text_inference expF randT text,
        x ≤ (detect_emotion_from_text expF randT text).confidence) ∧
      (detect_emotion_from_text expF randT text).emotion
        = emotionLabels.getD (npArgmax (simulate_text_inference expF randT text)) "" ∧
      (detect_emotion_from_text expF randT text).emotion ∈ emotionLabels) ∧
    ((detect_emotion_from_audio expF randA audioFeatures).allScores
        = some (emotionLabels.zip (simulate_audio_inference expF randA audioFeatures)) ∧
      (emotionLabels.zip (simulate_audio_inference expF randA audioFeatures)).map Prod.fst
        = emotionLabels ∧
      (∀ p ∈ emotionLabels.zip (simulate_audio_inference expF randA audioFeatures), 0 < p.2) ∧
      ((emotionLabels.zip (simulate_audio_inference expF randA audioFeatures)).map Prod.snd).sum = 1 ∧
      (detect_emotion_from_audio expF randA audioFeatures).confidence
        ∈ simulate_audio_inference expF randA audioFeatures ∧
      (∀ x ∈ simulate_audio_inference expF randA audioFeatures,
        x ≤ (detect_emotion_from_audio expF randA audioFeatures).confidence) ∧
      (detect_emotion_from_audio expF randA audioFeatures).emotion
        = emotionLabels.getD (npArgmax (simulate_audio_inference expF randA audioFeatures)) "" ∧
      (detect_emotion_from_audio expF randA audioFeatures).emotion ∈ emotionLabels) ∧
    ((detect_emotion_multimodal expF randT randA text audioFeatures).allScores
        = some (emotionLabels.zip
            (simulate_multimodal_inference expF randT randA text audioFeatures)) ∧
      (emotionLabels.zip
          (simulate_multimodal_inference expF randT randA text audioFeatures)).map Prod.fst
        = emotionLabels ∧
      (∀ p ∈ emotionLabels.zip
          (simulate_multimodal_inference expF randT randA text audioFeatures), 0 < p.2) ∧
      ((emotionLabels.zip
          (simulate_multimodal_inference expF randT randA text audioFeatures)).map Prod.snd).sum = 1 ∧
      (detect_emotion_multimodal expF randT randA text audioFeatures).confidence
        ∈ simulate_multimodal_inference expF randT randA text audioFeatures ∧
      (∀ x ∈ simulate_multimodal_inference expF randT randA text audioFeatures,
        x ≤ (detect_emotion_multimodal expF randT randA text audioFeatures).confidence) ∧
      (detect_emotion_multimodal expF randT randA text audioFeatures).emotion
        = emotionLabels.getD
            (npArgmax (simulate_multimodal_inference expF randT randA text audioFeatures)) "" ∧
      (detect_emotion_multimodal expF randT randA text audioFeatures).emotion
        ∈ emotionLabels) := by
  obtain ⟨hTl, hTp, hTs⟩ := simulate_text_props expF randT text hexp hrandT hlenT
  obtain ⟨hAl, hAp, hAs⟩ :=
    simulate_audio_props expF randA audioFeatures hexp hrandA hlenA
  obtain ⟨hMl, hMp, hMs⟩ := simulate_multimodal_props expF randT randA text
    audioFeatures hexp hrandT hlenT hrandA hlenA
  obtain ⟨bT1, bT2, bT3, bT4, bT5, bT6, bT7, -, -⟩ :=
    buildEmotionResult_spec "text_emotion_optimized" _ hTl
  obtain ⟨bA1, bA2, bA3, bA4, bA5, bA6, bA7, -, -⟩ :=
    buildEmotionResult_spec "audio_emotion_optimized" _ hAl
  obtain ⟨bM1, bM2, bM3, bM4, bM5, bM6, bM7, -, -⟩ :=
    buildEmotionResult_spec "multimodal_optimized" _ hMl
  refine ⟨by decide,
    ⟨bT1, bT2, ?_, by rw [bT3]; exact hTs, bT4, bT5, bT6, bT7⟩,
    ⟨bA1, bA2, ?_, by rw [bA3]; exact hAs, bA4, bA5, bA6, bA7⟩,
    ⟨bM1, bM2, ?_, by rw [bM3]; exact hMs, bM4, bM5, bM6, bM7⟩⟩
  · intro p hp; exact hTp p.2 (List.of_mem_zip hp).2
  · intro p hp; exact hAp p.2 (List.of_mem_zip hp).2
  · intro p hp; exact hMp p.2 (List.of_mem_zip hp).2

/-- C1: the "production" inference is simulated from a pseudo-random draw
adjusted by keyword heuristics — `detect_emotion_from_text` is literally
softmax of the adjusted draw — so there is an input (for each of the text,
audio and multimodal variants) on which two runs, i.e. two different
pseudo-random draws, return different results.  `expF` embeds `np.exp`:
strictly monotone and positive on nonnegative inputs. -/
theorem claim_C1_randomized_inference (expF : ℚ → ℚ)
    (hmono : StrictMono expF) (hpos : ∀ x, 0 ≤ x → 0 < expF x) :
    (∀ rand text, detect_emotion_from_text expF rand text
      = buildEmotionResult "text_emotion_optimized"
          (softmax expF (adjustScores text rand))) ∧
    (∃ text r1 r2, detect_emotion_from_text expF r1 text
      ≠ detect_emotion_from_text expF r2 text) ∧
    (∃ audioFeatures r1 r2, detect_emotion_from_audio expF r1 audioFeatures
      ≠ detect_emotion_from_audio expF r2 audioFeatures) ∧
    (∃ text audioFeatures rT1 rA1 rT2 rA2,
      detect_emotion_multimodal expF rT1 rA1 text audioFeatures
      ≠ detect_emotion_multimodal expF rT2 rA2 text audioFeatures) := by
  have h05 : ∀ x ∈ ([0,0,0,0,0,1,0,0,0,0,0,0,0] : List ℚ), (0:ℚ) ≤ x := by
    decide
  have h07 : ∀ x ∈ ([0,0,0,0,0,0,0,1,0,0,0,0,0] : List ℚ), (0:ℚ) ≤ x := by
    decide
  have adjT : ∀ r : List ℚ, adjustScores "" r = r := by
    intro r
    have h1 : anyWordIn happyWords "" = false := by decide
    have h2 : anyWordIn sadWords "" = false := by decide
    have h3 : anyWordIn angryWords "" = false := by decide
    simp [adjustScores, h1, h2, h3]
  have adjA : ∀ r : List ℚ, adjustAudio ([] : List ℚ).length r = r := by
    intro r
    simp [adjustAudio]
  have emoT : ∀ r : List ℚ, (∀ x ∈ r, (0:ℚ) ≤ x) →
      (detect_emotion_from_text expF r "").emotion
        = emotionLabels.getD (npArgmax r) "" := by
    intro r hr
    have hd : detect_emotion_from_text expF r ""
        = buildEmotionResult "text_emotion_optimized" (softmax expF r) := by
      rw [detect_emotion_from_text, simulate_text_inference, adjT]
    rw [hd]
    show emotionLabels.getD (npArgmax (softmax expF r)) "" = _
    rw [npArgmax_softmax hmono (fun x hx => hpos x (hr x hx))]
  have emoA : ∀ r : List ℚ, (∀ x ∈ r, (0:ℚ) ≤ x) →
      (detect_emotion_from_audio expF r []).emotion
        = emotionLabels.getD (npArgmax r) "" := by
    intro r hr
    have hd : detect_emotion_from_audio expF r []
        = buildEmotionResult "audio_emotion_optimized" (softmax expF r) := by
      rw [detect_emotion_from_audio, simulate_audio_inference, adjA]
    rw [hd]
    show emotionLabels.getD (npArgmax (softmax expF r)) "" = _
    rw [npArgmax_softmax hmono (fun x hx => hpos x (hr x hx))]
  have emoM : ∀ r : List ℚ, (∀ x ∈ r, (0:ℚ) ≤ x) →
      (detect_emotion_multimodal expF r r "" []).emotion
        = emotionLabels.getD (npArgmax r) "" := by
    intro r hr
    have hfused : simulate_multimodal_inference expF r r "" []
        = softmax expF r := by
      rw [simulate_multimodal_inference, simulate_text_inference,
        simulate_audio_inference, adjT, adjA, List.zipWith_same]
      have : (softmax expF r).map (fun x => 3/5 * x + 2/5 * x)
          = (softmax expF r).map id :=
        List.map_congr_left (fun a _ => by simp; ring)
      rw [this, List.map_id]
    have hd : detect_emotion_multimodal expF r r "" []
        = buildEmotionResult "multimodal_optimized" (softmax expF r) := by
      rw [detect_emotion_multimodal, hfused]
    rw [hd]
    show emotionLabels.getD (npArgmax (softmax expF r)) "" = _
    rw [npArgmax_softmax hmono (fun x hx => hpos x (hr x hx))]
  have argmax5 : npArgmax [0,0,0,0,0,1,0,0,0,0,0,0,0] = 5 := by decide
  have argmax7 : npArgmax [0,0,0,0,0,0,0,1,0,0,0,0,0] = 7 := by decide
  refine ⟨fun rand text => rfl,
    ⟨"", [0,0,0,0,0,1,0,0,0,0,0,0,0], [0,0,0,0,0,0,0,1,0,0,0,0,0], fun h => ?_⟩,
    ⟨[], [0,0,0,0,0,1,0,0,0,0,0,0,0], [0,0,0,0,0,0,0,1,0,0,0,0,0], fun h => ?_⟩,
    ⟨"", [], [0,0,0,0,0,1,0,0,0,0,0,0,0], [0,0,0,0,0,1,0,0,0,0,0,0,0],
      [0,0,0,0,0,0,0,1,0,0,0,0,0], [0,0,0,0,0,0,0,1,0,0,0,0,0], fun h => ?_⟩⟩
  · have h5 := emoT _ h05
    have h7 := emoT _ h07
    rw [h, h7, argmax5, argmax7] at h5
    exact absurd h5 (by decide)
  · have h5 := emoA _ h05
    have h7 := emoA _ h07
    rw [h, h7, argmax5, argmax7] at h5
    exact absurd h5 (by decide)
  · have h5 := emoM _ h05
    have h7 := emoM _ h07
    rw [h, h7, argmax5, argmax7] at h5
    exact absurd h5 (by decide)

/-- Witness for C1 at the concrete exponential-stand-in `x + 1`: strictly
monotone and positive on nonnegative inputs, so two text runs differ. -/
theorem claim_C1_witness :
    ∃ text r1 r2, detect_emotion_from_text (fun x : ℚ => x + 1) r1 text
      ≠ detect_emotion_from_text (fun x : ℚ => x + 1) r2 text :=
  (claim_C1_randomized_inference (fun x => x + 1)
    (fun _ _ h => add_lt_add_right h 1)
    (fun x hx => by show (0:ℚ) < x + 1; linarith)).2.1

/-- C3: each `detect_emotion_*` method is wrapped in `try/except`: the
service state is never modified, and when any internal step raises, the
method returns the fallback dictionary `{'emotion': 'neutral',
'confidence': 0.5, 'error': str(e)}` instead of propagating. -/
theorem claim_C3_error_fallback (st : ServiceState)
    (inference : Except String (List ℚ)) (e : String) :
    (detect_emotion_from_text_caught st inference).2 = st ∧
    (detect_emotion_from_audio_caught st inference).2 = st ∧
    (detect_emotion_multimodal_caught st inference).2 = st ∧
    (inference = Except.error e →
      (detect_emotion_from_text_caught st inference).1 = errorFallback e ∧
      (detect_emotion_from_audio_caught st inference).1 = errorFallback e ∧
      (detect_emotion_multimodal_caught st inference).1 = errorFallback e) ∧
    errorFallback e = ⟨"neutral", 1/2, none, none, some e⟩ := by
  refine ⟨rfl, rfl, rfl, fun h => ?_, rfl⟩
  subst h
  exact ⟨rfl, rfl, rfl⟩

/-- Witness for C3 at a concrete failing inference. -/
theorem claim_C3_witness :
    (detect_emotion_from_text_caught ⟨[]⟩ (Except.error "boom")).1
      = errorFallback "boom" ∧
    (detect_emotion_from_text_caught ⟨[]⟩ (Except.error "boom")).2 = ⟨[]⟩ :=
  ⟨((claim_C3_error_fallback ⟨[]⟩ (Except.error "boom") "boom").2.2.2.1 rfl).1,
    (claim_C3_error_fallback ⟨[]⟩ (Except.error "boom") "boom").1⟩

/-- C6: the multimodal forward pass fuses the text model's BERT pooler
output with the audio model's conv1/conv2/pool/lstm last hidden state, and
the individual models' classification heads do not contribute: replacing
them leaves the output unchanged. -/
theorem claim_C6_multimodal_fusion (m : MultimodalEmotionModel)
    (inputIdsAttn : List ℤ × List ℤ) (audioFeatures : List ℚ)
    (tc ac : List ℚ → List ℚ) :
    m.forward inputIdsAttn audioFeatures
      = m.fusion (m.text_model.bert inputIdsAttn ++
          (m.audio_model.lstm (m.audio_model.pool (reluVec (m.audio_model.conv2
            (reluVec (m.audio_model.conv1 audioFeatures)))))).2) ∧
    MultimodalEmotionModel.forward
      { m with text_model := { m.text_model with classifier := tc },
               audio_model := { m.audio_model with classifier := ac } }
      inputIdsAttn audioFeatures
      = m.forward inputIdsAttn audioFeatures :=
  ⟨rfl, rfl⟩

/-- C10: when the production service is unavailable, `main` prints the
fixed fallback (five labels summing to 1, `model_used = mode +
"_fallback"`) for every mode and valid JSON payload and does not exit
nonzero; the explicit `sys.exit(1)` fires exactly when the argument count
is not 3. -/
theorem claim_C10_wrapper_fallback {J P : Type} (serviceAvailable : Bool)
    (parse : String → Except String J) (serviceRun : String → J → P)
    (argv argv2 : List String) (prog mode payload : String) (pj : J)
    (h3 : argv = [prog, mode, payload]) (hsa : serviceAvailable = false)
    (hparse : parse payload = .ok pj) :
    wrapperMain serviceAvailable parse serviceRun argv
      = .printedFallback (fallbackMsg mode) ∧
    fallbackMsg mode
      = ⟨"neutral", 1/2, fallbackAllScores, mode ++ "_fallback"⟩ ∧
    (fallbackAllScores.map Prod.snd).sum = 1 ∧
    fallbackAllScores.length = 5 ∧
    wrapperMain serviceAvailable parse serviceRun argv
      ≠ MainResult.badArgs ∧
    (¬ argv2.length = 3 →
      wrapperMain serviceAvailable parse serviceRun argv2
        = MainResult.badArgs) := by
  subst h3 hsa
  have hmain : wrapperMain false parse serviceRun [prog, mode, payload]
      = .printedFallback (fallbackMsg mode) := by
    simp [wrapperMain, hparse]
  refine ⟨hmain, rfl, by simp [fallbackAllScores]; norm_num,
    by decide, ?_, fun h => ?_⟩
  · rw [hmain]; nofun
  · simp [wrapperMain, h]

/-- Witness for C10 at a concrete unavailable-service invocation. -/
theorem claim_C10_witness :
    wrapperMain false (fun _ => Except.ok ()) (fun _ _ => ())
      ["wrapper", "text", "{}"]
      = .printedFallback (fallbackMsg "text") ∧
    fallbackMsg "text"
      = ⟨"neutral", 1/2, fallbackAllScores, "text" ++ "_fallback"⟩ ∧
    (fallbackAllScores.map Prod.snd).sum = 1 ∧
    fallbackAllScores.length = 5 ∧
    wrapperMain false (fun _ => Except.ok ()) (fun _ _ => ())
      ["wrapper", "text", "{}"]
      ≠ MainResult.badArgs ∧
    (¬ ([] : List String).length = 3 →
      wrapperMain false (fun _ => Except.ok ()) (fun _ _ => ())
        ([] : List String) = MainResult.badArgs) :=
  claim_C10_wrapper_fallback false (fun _ => Except.ok ()) (fun _ _ => ())
    ["wrapper", "text", "{}"] [] "wrapper" "text" "{}" () rfl rfl rfl

/-- C7: `optimize_model` is a fixed sequence of library invocations:
`light` applies only TorchScript (a failure there propagates, there being
no `try`); `medium` applies TorchScript then dynamic int8 quantization of
the `Linear`, `LSTM`, `Conv1d` modules; `aggressive` additionally exports
the original model to ONNX and loads an inference session; and at `medium`
and `aggressive` a script or quantization exception is caught, the call
returns normally, and `optimized_model` falls back to the unoptimized
original model (an ONNX-export exception is caught inside
`_export_to_onnx` and leaves the TorchScript result in place). -/
theorem claim_C7_optimization_pipeline {M S R : Type}
    (w : ProductionModelWrapper M S R)
    (script : M → Except String M)
    (quant : M → List String → Except String M)
    (onnxExport : M → Except String S) (m q : M) (s : S) (e : String) :
    (optimize_model w script quant onnxExport true "light"
      = (script w.originalModel).map
          (fun m1 => { w with optimizedModel := some m1 })) ∧
    (script w.originalModel = .ok m →
      quant w.originalModel quantLayerSet = .ok q →
      optimize_model w script quant onnxExport true "medium"
        = .ok { w with optimizedModel := some m, quantizedModel := some q }) ∧
    quantLayerSet = ["Linear", "LSTM", "Conv1d"] ∧
    (script w.originalModel = .ok m →
      quant w.originalModel quantLayerSet = .ok q →
      onnxExport w.originalModel = .ok s →
      optimize_model w script quant onnxExport true "aggressive"
        = .ok { w with optimizedModel := some m, quantizedModel := some q,
                       onnxSession := some s }) ∧
    (script w.originalModel = .error e →
      optimize_model w script quant onnxExport true "medium"
        = .ok { w with optimizedModel := some w.originalModel } ∧
      optimize_model w script quant onnxExport true "aggressive"
        = .ok { w with optimizedModel := some w.originalModel }) ∧
    (script w.originalModel = .ok m →
      quant w.originalModel quantLayerSet = .error e →
      optimize_model w script quant onnxExport true "medium"
        = .ok { w with optimizedModel := some w.originalModel } ∧
      optimize_model w script quant onnxExport true "aggressive"
        = .ok { w with optimizedModel := some w.originalModel }) ∧
    (script w.originalModel = .ok m →
      quant w.originalModel quantLayerSet = .ok q →
      onnxExport w.originalModel = .error e →
      optimize_model w script quant onnxExport true "aggressive"
        = .ok { w with optimizedModel := some m, quantizedModel := some q }) ∧
    (∃ w1, optimize_model w script quant onnxExport true "medium"
      = .ok w1) ∧
    (∃ w2, optimize_model w script quant onnxExport true "aggressive"
      = .ok w2) := by
  refine ⟨by simp [optimize_model], fun h1 h2 => by simp [optimize_model, h1, h2],
    rfl, fun h1 h2 h3 => by simp [optimize_model, h1, h2, h3],
    fun h1 => ⟨by simp [optimize_model, h1], by simp [optimize_model, h1]⟩,
    fun h1 h2 => ⟨by simp [optimize_model, h1, h2],
      by simp [optimize_model, h1, h2]⟩,
    fun h1 h2 h3 => by simp [optimize_model, h1, h2, h3], ?_, ?_⟩
  · rcases h1 : script w.originalModel with e1 | m1
    · exact ⟨{ w with optimizedModel := some w.originalModel },
        by simp [optimize_model, h1]⟩
    · rcases h2 : quant w.originalModel quantLayerSet with e2 | q2
      · exact ⟨{ w with optimizedModel := some w.originalModel },
          by simp [optimize_model, h1, h2]⟩
      · exact ⟨{ w with optimizedModel := some m1, quantizedModel := some q2 },
          by simp [optimize_model, h1, h2]⟩
  · rcases h1 : script w.originalModel with e1 | m1
    · exact ⟨{ w with optimizedModel := some w.originalModel },
        by simp [optimize_model, h1]⟩
    · rcases h2 : quant w.originalModel quantLayerSet with e2 | q2
      · exact ⟨{ w with optimizedModel := some w.originalModel },
          by simp [optimize_model, h1, h2]⟩
      · rcases h3 : onnxExport w.originalModel with e3 | s3
        · exact ⟨{ w with optimizedModel := some m1, quantizedModel := some q2 },
            by simp [optimize_model, h1, h2, h3]⟩
        · exact ⟨{ w with optimizedModel := some m1, quantizedModel := some q2,
                          onnxSession := some s3 },
            by simp [optimize_model, h1, h2, h3]⟩

/-- Witness for C7: the aggressive level at concrete library outcomes. -/
theorem claim_C7_witness :
    optimize_model (M := ℕ) (S := ℕ) (R := ℕ)
      ⟨0, "text_emotion", none, none, none, 0, []⟩
      (fun x => .ok (x + 1)) (fun x _ => .ok (x + 2)) (fun x => .ok (x + 3))
      true "aggressive"
      = .ok ⟨0, "text_emotion", some 1, some 2, some 3, 0, []⟩ :=
  (claim_C7_optimization_pipeline
    ⟨0, "text_emotion", none, none, none, 0, []⟩
    (fun x => .ok (x + 1)) (fun x _ => .ok (x + 2)) (fun x => .ok (x + 3))
    1 2 3 "err").2.2.2.1 rfl rfl rfl

/-- C8 counterexample: the claim fails as stated because the store is
guarded by `if use_cache and cache_key:`, so an input whose
`hash(str(input_data))` equals 0 is never stored: after a first call
nothing is cached, and a second identical call runs inference again
(the inference-time list grows to length 2). -/
theorem claim_C8_counterexample :
    ((ProductionModelWrapper.predict (M := ℕ) (S := ℕ) (R := ℕ)
        ⟨0, "text_emotion", none, none, none, 0, []⟩
        (fun _ : ℕ => (0 : Int)) (fun _ => 42) 7 true).2.predictionCache
      = []) ∧
    ((ProductionModelWrapper.predict
        (ProductionModelWrapper.predict (M := ℕ) (S := ℕ) (R := ℕ)
          ⟨0, "text_emotion", none, none, none, 0, []⟩
          (fun _ : ℕ => (0 : Int)) (fun _ => 42) 7 true).2
        (fun _ : ℕ => (0 : Int)) (fun _ => 42) 7 true).2.inferenceTimes
      = 2) := by
  exact ⟨rfl, rfl⟩

/-- C8 (amended): for every input whose key `hash(str(input_data))` is
nonzero, calling `predict` with `use_cache=True` leaves the result cached
under that key, and a second call with the same input returns that stored
result with the wrapper unchanged — whatever model `g` the second call
would have used — so both calls return equal results.  (When the hash is
0 the truthiness guard skips the store and the second call re-runs
inference.) -/
theorem claim_C8_cache_hit {M S R I : Type}
    (w : ProductionModelWrapper M S R) (hashFn : I → Int) (f g : I → R)
    (i : I) (hk : hashFn i ≠ 0) :
    cacheLookup (hashFn i)
      (w.predict hashFn f i true).2.predictionCache
      = some (w.predict hashFn f i true).1 ∧
    (w.predict hashFn f i true).2.predict hashFn g i true
      = ((w.predict hashFn f i true).1, (w.predict hashFn f i true).2) := by
  rcases hc : cacheLookup (hashFn i) w.predictionCache with _ | r
  · have h1 : w.predict hashFn f i true
        = (f i, { w with inferenceTimes := w.inferenceTimes + 1,
                         predictionCache :=
                           (hashFn i, f i) :: w.predictionCache }) := by
      simp [ProductionModelWrapper.predict, hc, hk]
    have h2 : cacheLookup (hashFn i)
        ((hashFn i, f i) :: w.predictionCache) = some (f i) := by
      simp [cacheLookup]
    refine ⟨by rw [h1]; exact h2, ?_⟩
    rw [h1]
    simp [ProductionModelWrapper.predict, h2]
  · have h1 : w.predict hashFn f i true = (r, w) := by
      simp [ProductionModelWrapper.predict, hc]
    refine ⟨by rw [h1]; exact hc, ?_⟩
    rw [h1]
    simp [ProductionModelWrapper.predict, hc]

/-- Witness for C8 at a concrete nonzero hash. -/
theorem claim_C8_witness :
    cacheLookup (7 : Int)
      ((ProductionModelWrapper.predict (M := ℕ) (S := ℕ) (R := ℕ)
        ⟨0, "audio_emotion", none, none, none, 0, []⟩
        (fun _ : ℕ => (7 : Int)) (fun _ => 1) 3 true).2.predictionCache)
      = some ((ProductionModelWrapper.predict (M := ℕ) (S := ℕ) (R := ℕ)
        ⟨0, "audio_emotion", none, none, none, 0, []⟩
        (fun _ : ℕ => (7 : Int)) (fun _ => 1) 3 true).1) ∧
    ((ProductionModelWrapper.predict (M := ℕ) (S := ℕ) (R := ℕ)
        ⟨0, "audio_emotion", none, none, none, 0, []⟩
        (fun _ : ℕ => (7 : Int)) (fun _ => 1) 3 true).2.predict
        (fun _ : ℕ => (7 : Int)) (fun _ => 2) 3 true)
      = (((ProductionModelWrapper.predict (M := ℕ) (S := ℕ) (R := ℕ)
        ⟨0, "audio_emotion", none, none, none, 0, []⟩
        (fun _ : ℕ => (7 : Int)) (fun _ => 1) 3 true).1),
        ((ProductionModelWrapper.predict (M := ℕ) (S := ℕ) (R := ℕ)
        ⟨0, "audio_emotion", none, none, none, 0, []⟩
        (fun _ : ℕ => (7 : Int)) (fun _ => 1) 3 true).2)) :=
  claim_C8_cache_hit
    ⟨0, "audio_emotion", none, none, none, 0, []⟩
    (fun _ : ℕ => (7 : Int)) (fun _ => 1) (fun _ => 2) 3 (by decide)

/-! ### Lemmas about the early-stopping loop -/

theorem runEpochs_go (patience : ℕ) (hp : 0 < patience) (valAcc : ℕ → ℚ) :
    ∀ (n e : ℕ) (s s' : TrainState) (e' : ℕ),
      runEpochs patience valAcc n e s = (s', e') →
      s.patienceCounter < patience →
      (∀ i, s.bestCheckpoint = some i → i < e ∧ valAcc i = s.bestValAcc) →
      (∀ j, j < e → valAcc j ≤ s.bestValAcc) →
      (s.bestCheckpoint = none → s.bestValAcc = 0) →
      e ≤ e' ∧ e' ≤ e + n ∧ (0 < n → e < e') ∧
      (e' < e + n → s'.patienceCounter = patience) ∧
      (∀ i, s'.bestCheckpoint = some i → i < e' ∧ valAcc i = s'.bestValAcc) ∧
      (∀ j, j < e' → valAcc j ≤ s'.bestValAcc) ∧
      (s'.bestCheckpoint = none → s'.bestValAcc = 0) := by
  intro n
  induction n with
  | zero =>
    intro e s s' e' hrun h1 h2 h3 h4
    simp only [runEpochs, Prod.mk.injEq] at hrun
    obtain ⟨rfl, rfl⟩ := hrun
    exact ⟨le_refl _, by omega, by omega, by omega, h2, h3, h4⟩
  | succ n ih =>
    intro e s s' e' hrun h1 h2 h3 h4
    simp only [runEpochs] at hrun
    by_cases himp : s.bestValAcc < valAcc e
    · have hstep : epochUpdate patience s e (valAcc e)
          = (⟨valAcc e, 0, some e⟩, false) := by
        simp [epochUpdate, himp]
      rw [hstep] at hrun
      simp only [Bool.false_eq_true, if_false] at hrun
      have h2' : ∀ i, (⟨valAcc e, 0, some e⟩ : TrainState).bestCheckpoint
          = some i → i < e + 1
            ∧ valAcc i = (⟨valAcc e, 0, some e⟩ : TrainState).bestValAcc := by
        intro i hi
        obtain rfl : e = i := by simpa using hi
        exact ⟨by omega, rfl⟩
      have h3' : ∀ j, j < e + 1 →
          valAcc j ≤ (⟨valAcc e, 0, some e⟩ : TrainState).bestValAcc := by
        intro j hj
        rcases Nat.lt_succ_iff_lt_or_eq.mp hj with hj | rfl
        · exact le_trans (h3 j hj) (le_of_lt himp)
        · exact le_refl _
      obtain ⟨ha, hb, _, hd, he2, hf, hg⟩ :=
        ih (e + 1) ⟨valAcc e, 0, some e⟩ s' e' hrun hp h2' h3' (by intro h; cases h)
      exact ⟨by omega, by omega, by omega, fun h => hd (by omega), he2, hf, hg⟩
    · have hstep : epochUpdate patience s e (valAcc e)
          = (⟨s.bestValAcc, s.patienceCounter + 1, s.bestCheckpoint⟩,
             decide (patience ≤ s.patienceCounter + 1)) := by
        simp [epochUpdate, himp]
      rw [hstep] at hrun
      by_cases hstop : patience ≤ s.patienceCounter + 1
      · rw [if_pos (by simpa using hstop)] at hrun
        simp only [Prod.mk.injEq] at hrun
        obtain ⟨rfl, rfl⟩ := hrun
        refine ⟨by omega, by omega, by omega, fun _ => by simp; omega,
          ?_, ?_, h4⟩
        · intro i hi
          obtain ⟨hlt, hv⟩ := h2 i hi
          exact ⟨by omega, hv⟩
        · intro j hj
          rcases Nat.lt_succ_iff_lt_or_eq.mp hj with hj | rfl
          · exact h3 j hj
          · exact not_lt.mp himp
      · rw [if_neg (by simpa using hstop)] at hrun
        have h1' : (⟨s.bestValAcc, s.patienceCounter + 1, s.bestCheckpoint⟩ :
            TrainState).patienceCounter < patience := by
          simpa using not_le.mp hstop
        have h2' : ∀ i, (⟨s.bestValAcc, s.patienceCounter + 1,
            s.bestCheckpoint⟩ : TrainState).bestCheckpoint = some i →
            i < e + 1 ∧ valAcc i = (⟨s.bestValAcc, s.patienceCounter + 1,
              s.bestCheckpoint⟩ : TrainState).bestValAcc := by
          intro i hi
          obtain ⟨hlt, hv⟩ := h2 i hi
          exact ⟨by omega, hv⟩
        have h3' : ∀ j, j < e + 1 →
            valAcc j ≤ (⟨s.bestValAcc, s.patienceCounter + 1,
              s.bestCheckpoint⟩ : TrainState).bestValAcc := by
          intro j hj
          rcases Nat.lt_succ_iff_lt_or_eq.mp hj with hj | rfl
          · exact h3 j hj
          · exact not_lt.mp himp
        obtain ⟨ha, hb, _, hd, he2, hf, hg⟩ :=
          ih (e + 1) ⟨s.bestValAcc, s.patienceCounter + 1, s.bestCheckpoint⟩
            s' e' hrun h1' h2' h3' h4
        exact ⟨by omega, by omega, by omega, fun h => hd (by omega), he2, hf, hg⟩

/-- C2: each of the three training loops updates its early-stopping state
per epoch exactly as described (strict improvement saves the checkpoint
and resets the counter, otherwise the counter increments and the loop
breaks once it reaches `patience`), runs at most the configured number of
epochs, stops early exactly with `patience_counter = patience`, and the
checkpoint finally reloaded for test evaluation is a best epoch — it
exists whenever some epoch improves on the initial 0 accuracy. -/
theorem claim_C2_early_stopping (epochs patience : ℕ) (valAcc : ℕ → ℚ)
    (s : TrainState) (ep : ℕ) (a : ℚ) (hp : 0 < patience) :
    (s.bestValAcc < a →
      epochUpdate patience s ep a = (⟨a, 0, some ep⟩, false)) ∧
    (¬ s.bestValAcc < a →
      epochUpdate patience s ep a
        = (⟨s.bestValAcc, s.patienceCounter + 1, s.bestCheckpoint⟩,
           decide (patience ≤ s.patienceCounter + 1))) ∧
    train_text_emotion_model epochs patience valAcc
      = train_emotion_model_loop epochs patience valAcc ∧
    train_audio_emotion_model epochs patience valAcc
      = train_emotion_model_loop epochs patience valAcc ∧
    train_multimodal_model patience valAcc
      = train_emotion_model_loop 3 patience valAcc ∧
    (train_emotion_model_loop epochs patience valAcc).2 ≤ epochs ∧
    ((train_emotion_model_loop epochs patience valAcc).2 < epochs →
      (train_emotion_model_loop epochs patience valAcc).1.patienceCounter
        = patience) ∧
    (∀ i, (train_emotion_model_loop epochs patience valAcc).1.bestCheckpoint
        = some i →
      i < (train_emotion_model_loop epochs patience valAcc).2 ∧
      valAcc i
        = (train_emotion_model_loop epochs patience valAcc).1.bestValAcc ∧
      ∀ j, j < (train_emotion_model_loop epochs patience valAcc).2 →
        valAcc j
          ≤ (train_emotion_model_loop epochs patience valAcc).1.bestValAcc) ∧
    final_test_model epochs patience valAcc
      = (train_emotion_model_loop epochs patience valAcc).1.bestCheckpoint ∧
    (0 < epochs → 0 < valAcc 0 →
      (train_emotion_model_loop epochs patience valAcc).1.bestCheckpoint
        ≠ none) := by
  obtain ⟨ha, hb, hc, hd, he2, hf, hg⟩ :=
    runEpochs_go patience hp valAcc epochs 0 initTrainState
      (train_emotion_model_loop epochs patience valAcc).1
      (train_emotion_model_loop epochs patience valAcc).2
      (by rw [train_emotion_model_loop])
      hp (by intro i hi; cases hi) (by intro j hj; omega)
      (fun _ => rfl)
  refine ⟨fun h => by simp [epochUpdate, h],
    fun h => by simp [epochUpdate, h],
    rfl, rfl, rfl, by omega, fun h => hd (by omega), ?_, rfl, ?_⟩
  · intro i hi
    obtain ⟨hlt, hv⟩ := he2 i hi
    exact ⟨hlt, hv, fun j hj => hf j hj⟩
  · intro hep hval hnone
    have hzero := hg hnone
    have := hf 0 (hc hep)
    rw [hzero] at this
    exact absurd hval (not_lt.mpr this)

/-- Witness for C2: a run with 5 configured epochs and patience 2 that
stops early. -/
theorem claim_C2_witness :
    (train_emotion_model_loop 5 2
      (fun i => if i = 0 then 1/2 else 0)).2 ≤ 5 :=
  (claim_C2_early_stopping 5 2 (fun i => if i = 0 then 1/2 else 0)
    initTrainState 0 1 (by norm_num)).2.2.2.2.2.1

/-! ### Lemmas about `create_balanced_dataset` -/

theorem uniqueKeep_go_mem (l : List String) :
    ∀ (acc : List String) (a : String),
      a ∈ l.foldl (fun acc e => if e ∈ acc then acc else acc ++ [e]) acc ↔
        a ∈ acc ∨ a ∈ l := by
  induction l with
  | nil => intro acc a; simp
  | cons b t ih =>
    intro acc a
    simp only [List.foldl]
    by_cases hb : b ∈ acc
    · rw [if_pos hb, ih]
      have hba : a = b → a ∈ acc := fun h => h ▸ hb
      simp only [List.mem_cons]
      tauto
    · rw [if_neg hb, ih]
      simp only [List.mem_append, List.mem_cons, List.mem_singleton]
      tauto

theorem uniqueKeep_go_nodup (l : List String) :
    ∀ acc : List String, acc.Nodup →
      (l.foldl (fun acc e => if e ∈ acc then acc else acc ++ [e]) acc).Nodup := by
  induction l with
  | nil => intro acc h; simpa using h
  | cons b t ih =>
    intro acc h
    simp only [List.foldl]
    by_cases hb : b ∈ acc
    · rw [if_pos hb]; exact ih acc h
    · rw [if_neg hb]
      refine ih _ ?_
      rw [List.nodup_append]
      exact ⟨h, List.nodup_singleton b,
        fun x hx => by simp; intro hxb; exact hb (hxb ▸ hx)⟩

theorem mem_uniqueKeep {a : String} {l : List String} :
    a ∈ uniqueKeep l ↔ a ∈ l := by
  rw [uniqueKeep, uniqueKeep_go_mem]
  simp

theorem nodup_uniqueKeep (l : List String) : (uniqueKeep l).Nodup :=
  uniqueKeep_go_nodup l [] List.nodup_nil

theorem class_filter_ne {df : List Row} {e : String}
    (he : e ∈ df.map (fun r => r.emotion)) :
    df.filter (fun r => r.emotion == e) ≠ [] := by
  rcases List.mem_map.mp he with ⟨r, hr, hre⟩
  intro h
  have hm : r ∈ df.filter (fun r => r.emotion == e) :=
    List.mem_filter.mpr ⟨hr, by simp [hre]⟩
  rw [h] at hm
  simp at hm

theorem classBlock_length (sampleN sampleRep : List Row → ℕ → List Row)
    (HsnLen : ∀ l k, k ≤ l.length → (sampleN l k).length = k)
    (HsrLen : ∀ l k, l ≠ [] → (sampleRep l k).length = k)
    (df : List Row) (n : ℕ) (e : String)
    (he : e ∈ df.map (fun r => r.emotion)) :
    (classBlock sampleN sampleRep df n e).length = n := by
  have hne := class_filter_ne he
  rw [classBlock]
  by_cases h1 : n < (df.filter (fun r => r.emotion == e)).length
  · rw [if_pos h1]
    exact HsnLen _ n (le_of_lt h1)
  · rw [if_neg h1]
    by_cases h2 : 0 < n - (df.filter (fun r => r.emotion == e)).length
    · rw [if_pos h2, List.length_append, HsrLen _ _ hne]
      omega
    · rw [if_neg h2]
      omega

theorem classBlock_mem (sampleN sampleRep : List Row → ℕ → List Row)
    (HsnMem : ∀ l k x, x ∈ sampleN l k → x ∈ l)
    (HsrMem : ∀ l k x, l ≠ [] → x ∈ sampleRep l k → x ∈ l)
    (df : List Row) (n : ℕ) (e : String) (r : Row)
    (he : e ∈ df.map (fun r => r.emotion))
    (hr : r ∈ classBlock sampleN sampleRep df n e) :
    r ∈ df ∧ r.emotion = e := by
  have hne := class_filter_ne he
  have hmem : r ∈ df.filter (fun r => r.emotion == e) →
      r ∈ df ∧ r.emotion = e := by
    intro h
    have h' := List.mem_filter.mp h
    exact ⟨h'.1, by simpa using h'.2⟩
  rw [classBlock] at hr
  by_cases h1 : n < (df.filter (fun r => r.emotion == e)).length
  · rw [if_pos h1] at hr
    exact hmem (HsnMem _ _ _ hr)
  · rw [if_neg h1] at hr
    by_cases h2 : 0 < n - (df.filter (fun r => r.emotion == e)).length
    · rw [if_pos h2] at hr
      rcases List.mem_append.mp hr with h | h
      · exact hmem h
      · exact hmem (HsrMem _ _ _ hne h)
    · rw [if_neg h2] at hr
      exact hmem hr

theorem sum_map_ite_single {e : String} :
    ∀ (uk : List String) (n : ℕ), uk.Nodup → e ∈ uk →
      (uk.map (fun x => if x = e then n else 0)).sum = n := by
  intro uk
  induction uk with
  | nil => intro n _ h; simp at h
  | cons b t ih =>
    intro n hnd hmem
    simp only [List.map_cons, List.sum_cons]
    rcases List.mem_cons.mp hmem with rfl | hmem
    · rw [if_pos rfl]
      have hb : e ∉ t := (List.nodup_cons.mp hnd).1
      have hz : (t.map (fun x => if x = e then n else 0)).sum = 0 := by
        apply List.sum_eq_zero
        intro x hx
        rcases List.mem_map.mp hx with ⟨y, hy, rfl⟩
        have hyne : ¬ y = e := fun h => hb (by rw [← h]; exact hy)
        rw [if_neg hyne]
      omega
    · have hb : ¬ b = e :=
        fun h => (List.nodup_cons.mp hnd).1 (h ▸ hmem)
      rw [if_neg hb, ih n (List.nodup_cons.mp hnd).2 hmem]
      omega

theorem sum_map_const_nat (l : List String) (n : ℕ) :
    (l.map (fun _ => n)).sum = n * l.length := by
  induction l with
  | nil => simp
  | cons b t ih => simp [ih]; ring

/-- C4: `create_balanced_dataset` returns a dataframe in which every
emotion class present in the input has exactly `max_samples_per_class`
rows (classes above it downsampled, classes below padded by sampling with
replacement), so the result has `n * (number of distinct classes)` rows
and introduces no new emotion class.  The pandas samplers and the final
shuffle are parameters constrained by what `DataFrame.sample` guarantees:
a sample of `k` rows is `k` rows of the frame, and `sample(frac=1)`
permutes. -/
theorem claim_C4_balanced_dataset
    (sampleN sampleRep : List Row → ℕ → List Row)
    (shuffle : List Row → List Row) (df : List Row) (n : ℕ)
    (e : String) (r : Row)
    (HsnLen : ∀ l k, k ≤ l.length → (sampleN l k).length = k)
    (HsnMem : ∀ l k x, x ∈ sampleN l k → x ∈ l)
    (HsrLen : ∀ l k, l ≠ [] → (sampleRep l k).length = k)
    (HsrMem : ∀ l k x, l ≠ [] → x ∈ sampleRep l k → x ∈ l)
    (Hsh : ∀ l, (shuffle l).Perm l) :
    (e ∈ df.map (fun r => r.emotion) →
      (create_balanced_dataset sampleN sampleRep shuffle df n).countP
        (fun r => r.emotion == e) = n) ∧
    (create_balanced_dataset sampleN sampleRep shuffle df n).length
      = n * (uniqueKeep (df.map (fun r => r.emotion))).length ∧
    (r ∈ create_balanced_dataset sampleN sampleRep shuffle df n →
      r.emotion ∈ df.map (fun r => r.emotion)) := by
  refine ⟨fun he => ?_, ?_, fun hr => ?_⟩
  · simp only [create_balanced_dataset]
    rw [(Hsh _).countP_eq, List.countP_flatten, List.map_map]
    have hmap : (uniqueKeep (df.map (fun r => r.emotion))).map
          (List.countP (fun r => r.emotion == e)
            ∘ classBlock sampleN sampleRep df n)
        = (uniqueKeep (df.map (fun r => r.emotion))).map
            (fun x => if x = e then n else 0) := by
      refine List.map_congr_left (fun x hx => ?_)
      have hxE := mem_uniqueKeep.mp hx
      by_cases hxe : x = e
      · subst hxe
        rw [Function.comp_apply, if_pos rfl]
        rw [List.countP_eq_length.mpr]
        · exact classBlock_length sampleN sampleRep HsnLen HsrLen df n x hxE
        · intro a ha
          have := (classBlock_mem sampleN sampleRep HsnMem HsrMem
            df n x a hxE ha).2
          simp [this]
      · rw [Function.comp_apply, if_neg hxe]
        rw [List.countP_eq_zero.mpr]
        intro a ha
        have := (classBlock_mem sampleN sampleRep HsnMem HsrMem
          df n x a hxE ha).2
        simp [this, hxe]
    rw [hmap, sum_map_ite_single _ n
      (nodup_uniqueKeep (df.map (fun r => r.emotion)))
      (mem_uniqueKeep.mpr he)]
  · simp only [create_balanced_dataset]
    rw [(Hsh _).length_eq, List.length_flatten, List.map_map]
    have hmap : (uniqueKeep (df.map (fun r => r.emotion))).map
          (List.length ∘ classBlock sampleN sampleRep df n)
        = (uniqueKeep (df.map (fun r => r.emotion))).map (fun _ => n) :=
      List.map_congr_left (fun x hx =>
        classBlock_length sampleN sampleRep HsnLen HsrLen df n x
          (mem_uniqueKeep.mp hx))
    rw [hmap, sum_map_const_nat]
  · simp only [create_balanced_dataset] at hr
    have hr' := (Hsh _).mem_iff.mp hr
    rcases List.mem_flatten.mp hr' with ⟨blk, hblk, hrb⟩
    rcases List.mem_map.mp hblk with ⟨x, hx, rfl⟩
    obtain ⟨hdf, _⟩ := classBlock_mem sampleN sampleRep HsnMem HsrMem
      df n x r (mem_uniqueKeep.mp hx) hrb
    exact List.mem_map.mpr ⟨r, hdf, rfl⟩

/-- Witness for C4: a concrete frame with classes x (2 rows) and y (1 row)
rebalanced to 2 rows per class, using take / replicate-head samplers and
reversal as the shuffle. -/
theorem claim_C4_witness :
    (create_balanced_dataset (fun l k => l.take k)
      (fun l k => List.replicate k (l.headD ⟨"", ""⟩)) List.reverse
      [⟨"a", "x"⟩, ⟨"b", "x"⟩, ⟨"c", "y"⟩] 2).length
      = 2 * (uniqueKeep
          (([⟨"a", "x"⟩, ⟨"b", "x"⟩, ⟨"c", "y"⟩] : List Row).map
            (fun r => r.emotion))).length :=
  (claim_C4_balanced_dataset (fun l k => l.take k)
    (fun l k => List.replicate k (l.headD ⟨"", ""⟩)) List.reverse
    [⟨"a", "x"⟩, ⟨"b", "x"⟩, ⟨"c", "y"⟩] 2 "x" ⟨"a", "x"⟩
    (fun l k hk => by simp [List.length_take]; omega)
    (fun l k x hx => List.take_subset k l hx)
    (fun l k _ => List.length_replicate ..)
    (fun l k x hne hx => by
      rcases l with _ | ⟨a, t⟩
      · exact absurd rfl hne
      · rw [List.eq_of_mem_replicate hx]
        exact List.mem_cons_self ..)
    (fun l => List.reverse_perm l)).2.1

/-! ### Lemmas about `prepare_training_data` -/

theorem train_test_split_perm {α : Type} (perm : List α → List α)
    (hperm : ∀ l, (perm l).Perm l) (df : List α) (ts : ℚ) :
    ((train_test_split perm df ts).1
      ++ (train_test_split perm df ts).2).Perm df := by
  simp only [train_test_split]
  refine List.Perm.trans List.perm_append_comm ?_
  rw [List.take_append_drop]
  exact hperm df

theorem train_test_split_test_length {α : Type} (perm : List α → List α)
    (hperm : ∀ l, (perm l).Perm l) (df : List α) (ts : ℚ) (hts : ts ≤ 1) :
    (train_test_split perm df ts).2.length = nTestRows df.length ts := by
  simp only [train_test_split]
  rw [List.length_take, (hperm df).length_eq]
  have hk : nTestRows df.length ts ≤ df.length := by
    rw [nTestRows]
    refine Nat.ceil_le.mpr ?_
    calc ts * (df.length : ℚ) ≤ 1 * df.length :=
          mul_le_mul_of_nonneg_right hts (by positivity)
      _ = df.length := one_mul _
  omega

theorem train_test_split_train_length {α : Type} (perm : List α → List α)
    (hperm : ∀ l, (perm l).Perm l) (df : List α) (ts : ℚ) :
    (train_test_split perm df ts).1.length
      = df.length - nTestRows df.length ts := by
  simp only [train_test_split]
  rw [List.length_drop, (hperm df).length_eq]

/-- C5 counterexample: with 7 input rows and `test_size = 1/5` the test
split holds `ceil(7/5) = 2` rows, not the fraction `1/5 * 7 = 7/5` of all
rows the claim states. -/
theorem claim_C5_counterexample :
    ¬ (((prepare_training_data (id : List ℕ → List ℕ) id (List.range 7)
          (1/5) (1/10)).2.2.length : ℚ)
        = (1/5) * (((List.range 7).length : ℕ) : ℚ)) := by
  have hk : nTestRows (List.range 7).length (1/5) = 2 := by
    rw [nTestRows]
    rw [show (((List.range 7).length : ℕ) : ℚ) = 7 by simp]
    rw [Nat.ceil_eq_iff (by norm_num)]
    norm_num
  have hlen : (prepare_training_data (id : List ℕ → List ℕ) id
      (List.range 7) (1/5) (1/10)).2.2.length = 2 := by
    simp only [prepare_training_data, train_test_split, id]
    rw [hk]
    simp
  rw [hlen]
  simp
  norm_num

/-- C5 (amended): `prepare_training_data` partitions the input rows into
train, validation, and test (their concatenation is a permutation of the
input); the test split holds `ceil(test_size * n)` rows and the
validation split `ceil((val_size / (1 - test_size)) * (n - n_test))` rows
— sklearn's `train_test_split` ceils the fractional test share — and when
`test_size * n` and `val_size * n` are whole numbers these equal exactly
the claimed fractions `test_size * n` and `val_size * n` of all rows. -/
theorem claim_C5_amended {α : Type} (perm1 perm2 : List α → List α)
    (df : List α) (ts vs : ℚ) (a b : ℕ)
    (hp1 : ∀ l, (perm1 l).Perm l) (hp2 : ∀ l, (perm2 l).Perm l)
    (hts1 : ts ≤ 1) (hva : vs / (1 - ts) ≤ 1) :
    ((prepare_training_data perm1 perm2 df ts vs).1
      ++ (prepare_training_data perm1 perm2 df ts vs).2.1
      ++ (prepare_training_data perm1 perm2 df ts vs).2.2).Perm df ∧
    (prepare_training_data perm1 perm2 df ts vs).2.2.length
      = nTestRows df.length ts ∧
    (prepare_training_data perm1 perm2 df ts vs).2.1.length
      = nTestRows (df.length - nTestRows df.length ts) (vs / (1 - ts)) ∧
    (ts < 1 → ts * (df.length : ℚ) = (a : ℕ) →
      vs * (df.length : ℚ) = (b : ℕ) →
      (prepare_training_data perm1 perm2 df ts vs).2.2.length = a ∧
      (prepare_training_data perm1 perm2 df ts vs).2.1.length = b) := by
  have hsplit1 :
      (prepare_training_data perm1 perm2 df ts vs).2.2
        = (train_test_split perm1 df ts).2 := rfl
  have hsplit2 :
      (prepare_training_data perm1 perm2 df ts vs).2.1
        = (train_test_split perm2 (train_test_split perm1 df ts).1
            (vs / (1 - ts))).2 := rfl
  have hsplit3 :
      (prepare_training_data perm1 perm2 df ts vs).1
        = (train_test_split perm2 (train_test_split perm1 df ts).1
            (vs / (1 - ts))).1 := rfl
  have htest : (prepare_training_data perm1 perm2 df ts vs).2.2.length
      = nTestRows df.length ts := by
    rw [hsplit1]
    exact train_test_split_test_length perm1 hp1 df ts hts1
  have hval : (prepare_training_data perm1 perm2 df ts vs).2.1.length
      = nTestRows (df.length - nTestRows df.length ts) (vs / (1 - ts)) := by
    rw [hsplit2,
      train_test_split_test_length perm2 hp2 _ _ hva,
      train_test_split_train_length perm1 hp1 df ts]
  refine ⟨?_, htest, hval, fun hlt hta htb => ?_⟩
  · rw [hsplit1, hsplit2, hsplit3]
    have h1 := train_test_split_perm perm2 hp2
      (train_test_split perm1 df ts).1 (vs / (1 - ts))
    have h2 := train_test_split_perm perm1 hp1 df ts
    exact (h1.append_right _).trans h2
  · have hcN : nTestRows df.length ts = a := by
      rw [nTestRows, hta, Nat.ceil_natCast]
    have haleN : a ≤ df.length := by
      have : (a : ℚ) ≤ (df.length : ℚ) := by
        rw [← hta]
        calc ts * (df.length : ℚ) ≤ 1 * df.length :=
              mul_le_mul_of_nonneg_right hts1 (by positivity)
          _ = df.length := one_mul _
      exact_mod_cast this
    have h1ts : (1 : ℚ) - ts ≠ 0 := (sub_pos.mpr hlt).ne'
    refine ⟨by rw [htest, hcN], ?_⟩
    rw [hval, hcN, nTestRows, Nat.cast_sub haleN]
    have hkey : vs / (1 - ts) * ((df.length : ℚ) - (a : ℚ)) = (b : ℚ) := by
      rw [← hta, ← htb]
      field_simp
      ring
    rw [hkey, Nat.ceil_natCast]

/-- Witness for C5 at 10 rows, `test_size = 1/5`, `val_size = 1/10`:
the whole-number case gives exactly 2 test rows and 1 validation row. -/
theorem claim_C5_witness :
    (prepare_training_data (id : List ℕ → List ℕ) id (List.range 10)
      (1/5) (1/10)).2.2.length = 2 ∧
    (prepare_training_data (id : List ℕ → List ℕ) id (List.range 10)
      (1/5) (1/10)).2.1.length = 1 :=
  (claim_C5_amended id id (List.range 10) (1/5) (1/10) 2 1
    (fun l => List.Perm.refl l) (fun l => List.Perm.refl l)
    (by norm_num) (by norm_num)).2.2.2
    (by norm_num) (by simp; norm_num) (by simp)

/-- Witness for C9 at the concrete exponential-stand-in `x + 1` and a
concrete pseudo-random draw: the predicted emotion is one of the 13
configured labels. -/
theorem claim_C9_witness :
    (detect_emotion_from_text (fun x : ℚ => x + 1)
      [0, 0, 0, 0, 0, 1, 0, 0, 0, 0, 0, 0, 0] "hello").emotion
      ∈ emotionLabels :=
  ((claim_C9_success_invariants (fun x => x + 1)
    [0, 0, 0, 0, 0, 1, 0, 0, 0, 0, 0, 0, 0]
    [0, 0, 0, 0, 0, 1, 0, 0, 0, 0, 0, 0, 0] "hello" []
    (fun x hx => by show (0:ℚ) < x + 1; linarith)
    (by decide) (by decide) (by decide) (by decide)).2.1).2.2.2.2.2.2.2
